import Mathlib

/-!
Verification development for the "st" interactive 3D scene.

The program morphs thousands of entities between a scattered cloud and a
tree formation, driven by UI toggles or hand-gesture classification.
Floating-point numbers of the source are embedded as real numbers; the
`Math.random()` draws of the source are made explicit parameters so that
the point generators and the focus-target selection become pure functions.
-/

namespace St

open scoped Classical

noncomputable section

/-- The three display modes, from the `TreeState` enum of the types module. -/
inductive TreeState where
  | SCATTERED
  | TREE_SHAPE
  | FOCUS
deriving DecidableEq

/-- A 3D vector with real coordinates (embedding of `THREE.Vector3`, and of a
hand landmark's `{x, y, z}` record). -/
structure Vec3 where
  x : ℝ
  y : ℝ
  z : ℝ

/-- Euclidean distance, as the `dist` helper inside `detectGestures`
(`Math.sqrt(pow(dx,2) + pow(dy,2) + pow(dz,2))`). -/
def dist3 (p q : Vec3) : ℝ :=
  Real.sqrt ((p.x - q.x) ^ 2 + (p.y - q.y) ^ 2 + (p.z - q.z) ^ 2)

/-- Euclidean norm of a point (distance to the origin). -/
def norm3 (p : Vec3) : ℝ :=
  Real.sqrt (p.x ^ 2 + p.y ^ 2 + p.z ^ 2)

/-- Distance from the y-axis, `sqrt(x^2 + z^2)`, used to state the radial
bounds of the tree generator. -/
def radialDist (p : Vec3) : ℝ :=
  Real.sqrt (p.x ^ 2 + p.z ^ 2)

/-- Constant from src/utils/math.ts. -/
def TREE_HEIGHT : ℝ := 12

/-- Constant from src/utils/math.ts. -/
def TREE_RADIUS_BOTTOM : ℝ := 5.5

/-- Constant from src/utils/math.ts. -/
def SCATTER_RADIUS : ℝ := 15

/-- Embedding of `Math.cbrt` on the nonnegative reals (the sole use site feeds it a draw
from [0,1)). -/
def cbrt (x : ℝ) : ℝ := x ^ ((1 : ℝ) / 3)

/-- Embedding of `getScatterPoint` from src/utils/math.ts, with the three `Math.random()`
draws explicit: `u` for the azimuth, `v` for the polar angle, `w` for the
radius. -/
def getScatterPoint (radius u v w : ℝ) : Vec3 :=
  let theta := 2 * Real.pi * u
  let phi := Real.arccos (2 * v - 1)
  let r := cbrt w * radius
  ⟨r * Real.sin phi * Real.cos theta,
   r * Real.sin phi * Real.sin theta,
   r * Real.cos phi⟩

/-- Embedding of `getTreePoint` from src/utils/math.ts, with the three `Math.random()`
draws explicit: `hDraw` for the height, `rDraw` for the radius,
`tDraw` for the angle. -/
def getTreePoint (height radius yOffset hDraw rDraw tDraw : ℝ) : Vec3 :=
  let y := hDraw * height + yOffset
  let maxR := radius * (1 - hDraw)
  let r := maxR * (0.2 + 0.8 * Real.sqrt rDraw)
  let theta := tDraw * Real.pi * 2
  ⟨r * Real.cos theta, y, r * Real.sin theta⟩

/-- Embedding of `randomRange` from src/utils/math.ts with the draw explicit. -/
def randomRange (minV maxV u : ℝ) : ℝ := u * (maxV - minV) + minV

/-- Embedding of `THREE.MathUtils.lerp(x, y, t) = (1 - t) * x + t * y`. -/
def mathLerp (x y t : ℝ) : ℝ := (1 - t) * x + t * y

/-- Embedding of `THREE.MathUtils.clamp`, that is `Math.max(min, Math.min(max, value))`. -/
def clampNum (value minV maxV : ℝ) : ℝ := max minV (min maxV value)

/-- Embedding of `THREE.Vector3.lerpVectors(v1, v2, alpha)`, componentwise
`v1 + (v2 - v1) * alpha`. -/
def lerpVectors (v1 v2 : Vec3) (alpha : ℝ) : Vec3 :=
  ⟨v1.x + (v2.x - v1.x) * alpha,
   v1.y + (v2.y - v1.y) * alpha,
   v1.z + (v2.z - v1.z) * alpha⟩

/-- Embedding of `v.lerp(target, alpha)` of `THREE.Vector3` (same componentwise formula). -/
def vec3Lerp (v target : Vec3) (alpha : ℝ) : Vec3 := lerpVectors v target alpha

/-- The `speed` constant of `updateInstances` (Ornaments module). -/
def ornamentMorphSpeed : ℝ := 1.5

/-- The `speed` constant of the Foliage morph (`const speed = 2.0`). -/
def foliageMorphSpeed : ℝ := 2.0

/-- The smoothing constant of the Gifts morph (`1.5 * delta`). -/
def giftsMorphSpeed : ℝ := 1.5

/-- Morph progress given to a freshly created group:
`if (mesh.userData.morphValue === undefined) mesh.userData.morphValue = 0`. -/
def initialMorphValue : ℝ := 0

/-- The morph target derived from the application mode:
`state === TreeState.TREE_SHAPE ? 1 : 0`. -/
def morphTargetOf (st : TreeState) : ℝ :=
  if st = TreeState.TREE_SHAPE then 1 else 0

/-- One frame of the morph clock:
`morphValue = THREE.MathUtils.lerp(morphValue, targetMorph, speed * delta)`. -/
def morphStep (speed p target delta : ℝ) : ℝ :=
  mathLerp p target (speed * delta)

/-- The morph clock advanced over a sequence of per-frame `delta` values. -/
def morphRun (speed target : ℝ) : ℝ → List ℝ → ℝ
  | p, [] => p
  | p, d :: ds => morphRun speed target (morphStep speed p target d) ds

/-- One frame applied to every group's morph value; each mesh keeps its own
`userData.morphValue`, so the frame maps the step over the list of groups. -/
def stepAllGroups (gs : List ℝ) (speed target delta : ℝ) : List ℝ :=
  gs.map (fun p => morphStep speed p target delta)

/-- Embedding of `const floatAmp = (1 - t) * 0.5` of `updateInstances`: the idle-motion
jitter amplitude at morph progress `t`. -/
def floatAmplitude (t : ℝ) : ℝ := (1 - t) * 0.5

/-- Primitive tag of an ornament (`'SPHERE' | 'BOX'`). -/
inductive OrnamentType where
  | SPHERE
  | BOX
deriving DecidableEq

/-- Embedding of `OrnamentData` of the types module (color embedded as an rgb triple). -/
structure OrnamentData where
  type : OrnamentType
  tree : Vec3
  scatter : Vec3
  rotation : Vec3
  scale : ℝ
  speed : ℝ
  color : Vec3

/-- The position computed by `updateInstances` for instance `i` at morph
progress `t` and elapsed time `time`: `lerpVectors(scatter, tree, t)` plus
the sinusoidal idle offsets on x and y scaled by `floatAmp`. -/
def ornamentPosition (item : OrnamentData) (i : ℕ) (t time : ℝ) : Vec3 :=
  let base := lerpVectors item.scatter item.tree t
  ⟨base.x + Real.cos (time * item.speed * 0.5 + (i : ℝ)) * floatAmplitude t,
   base.y + Real.sin (time * item.speed + (i : ℝ)) * floatAmplitude t,
   base.z⟩

/-- The photo entity id generated by `UserPhotos`: `photo-<index>`. -/
def photoId (i : ℕ) : String := "photo-" ++ toString i

/-- The application state written by the gesture classifier: the mode, the
focused photo id, and the rotation-control signal `targetRotation`. -/
structure AppState where
  mode : TreeState
  focusedId : Option String
  rotX : ℝ
  rotY : ℝ

/-- Average distance of the four fingertip landmarks (index 8, middle 12,
ring 16, pinky 20) to the wrist landmark (index 0), from `detectGestures`. -/
def avgTipWristDist (lm : ℕ → Vec3) : ℝ :=
  (dist3 (lm 8) (lm 0) + dist3 (lm 12) (lm 0) +
   dist3 (lm 16) (lm 0) + dist3 (lm 20) (lm 0)) / 4

/-- Thumb-tip (landmark 4) to index-tip (landmark 8) distance, from
`detectGestures`. -/
def pinchDist (lm : ℕ → Vec3) : ℝ := dist3 (lm 4) (lm 8)

/-- The gesture classifier `detectGestures` of the Experience component.
`u` is the `Math.random()` draw of the focus-target selection. The rotation
section reads the pre-classification mode, because the React prop `treeState`
captured by the closure is not updated within the same call. -/
def detectGestures (lm : ℕ → Vec3) (nPhotos : ℕ) (u : ℝ) (s : AppState) : AppState :=
  let s1 :=
    if avgTipWristDist lm < 0.15 then
      { s with mode := TreeState.TREE_SHAPE }
    else if avgTipWristDist lm > 0.35 then
      { s with mode := TreeState.SCATTERED }
    else if pinchDist lm < 0.05 then
      if s.mode ≠ TreeState.FOCUS ∧ 0 < nPhotos then
        { s with mode := TreeState.FOCUS,
                 focusedId := some (photoId (Nat.floor (u * (nPhotos : ℝ)))) }
      else s
    else s
  if s.mode ≠ TreeState.TREE_SHAPE then
    { s1 with rotY := ((lm 9).x - 0.5) * 3.0, rotX := ((lm 9).y - 0.5) * 3.0 }
  else
    { s1 with rotX := 0, rotY := 0 }

/-- The video-element fields read by the per-frame gating check. -/
structure VideoInfo where
  readyState : ℕ
  paused : Bool
  videoWidth : ℕ
  videoHeight : ℕ
  currentTime : ℝ

/-- The strict validation guard of the `useFrame` callback: vision enabled,
landmarker and video present, `readyState >= 2`, playing, positive
dimensions, and a fresh frame (`currentTime !== lastVideoTimeRef`). -/
def frameGate (visionEnabled hasLandmarker hasVideo : Bool) (v : VideoInfo)
    (lastVideoTime : ℝ) : Prop :=
  visionEnabled = true ∧ hasLandmarker = true ∧ hasVideo = true ∧
  2 ≤ v.readyState ∧ v.paused = false ∧ 0 < v.videoWidth ∧
  0 < v.videoHeight ∧ v.currentTime ≠ lastVideoTime

/-- The gesture-processing part of the per-frame tick. The inference result
is `Except.error` when `detectForVideo` throws (the catch block swallows it),
and `Except.ok` with the detected hands otherwise; only a nonempty result
reaches `detectGestures`, with `results.landmarks[0]`. Returns the new
application state and the new `lastVideoTime`. -/
def frameTick (visionEnabled hasLandmarker hasVideo : Bool) (v : VideoInfo)
    (lastVideoTime : ℝ) (inference : Except Unit (List (ℕ → Vec3)))
    (nPhotos : ℕ) (u : ℝ) (s : AppState) : AppState × ℝ :=
  if frameGate visionEnabled hasLandmarker hasVideo v lastVideoTime then
    match inference with
    | Except.error _ => (s, v.currentTime)
    | Except.ok [] => (s, v.currentTime)
    | Except.ok (lm :: _) => (detectGestures lm nPhotos u s, v.currentTime)
  else (s, lastVideoTime)

/-- Default focus zoom distance (`focusDistance.current = 15.0`), also
written back by the effect that runs on entering focus. -/
def focusDistanceDefault : ℝ := 15

/-- Sensitivity constant `const zoomSpeed = 0.02` of the wheel handler. -/
def zoomSpeed : ℝ := 0.02

/-- One wheel event: `clamp(current + e.deltaY * zoomSpeed, 5.0, 40.0)`. -/
def zoomStep (d deltaY : ℝ) : ℝ :=
  clampNum (d + deltaY * zoomSpeed) 5 40

/-- The zoom distance after a sequence of wheel deltas. -/
def zoomRun (d : ℝ) (ds : List ℝ) : ℝ := ds.foldl zoomStep d

/-- The unclamped updates of a wheel-delta sequence all stay inside the
clamp bounds, so no clamp boundary is ever hit. -/
def UnclampedRun : ℝ → List ℝ → Prop
  | _, [] => True
  | d, dy :: ds =>
    (5 ≤ d + dy * zoomSpeed ∧ d + dy * zoomSpeed ≤ 40) ∧
      UnclampedRun (d + dy * zoomSpeed) ds

/-- Quaternion (embedding of `THREE.Quaternion`). -/
structure Quat where
  x : ℝ
  y : ℝ
  z : ℝ
  w : ℝ

/-- Embedding of `THREE.Quaternion.multiplyQuaternions(a, b)`. -/
def quatMul (a b : Quat) : Quat :=
  ⟨a.x * b.w + a.w * b.x + a.y * b.z - a.z * b.y,
   a.y * b.w + a.w * b.y + a.z * b.x - a.x * b.z,
   a.z * b.w + a.w * b.z + a.x * b.y - a.y * b.x,
   a.w * b.w - a.x * b.x - a.y * b.y - a.z * b.z⟩

/-- Embedding of `THREE.Quaternion.invert` (conjugation, for the unit quaternions of the
scene graph). -/
def quatInvert (q : Quat) : Quat := ⟨-q.x, -q.y, -q.z, q.w⟩

/-- Embedding of `THREE.Quaternion.setFromEuler` for the default XYZ order. -/
def quatFromEuler (ex ey ez : ℝ) : Quat :=
  let c1 := Real.cos (ex / 2)
  let c2 := Real.cos (ey / 2)
  let c3 := Real.cos (ez / 2)
  let s1 := Real.sin (ex / 2)
  let s2 := Real.sin (ey / 2)
  let s3 := Real.sin (ez / 2)
  ⟨s1 * c2 * c3 + c1 * s2 * s3,
   c1 * s2 * c3 - s1 * c2 * s3,
   c1 * c2 * s3 + s1 * s2 * c3,
   c1 * c2 * c3 - s1 * s2 * s3⟩

/-- Componentwise vector difference. -/
def vsub (a b : Vec3) : Vec3 := ⟨a.x - b.x, a.y - b.y, a.z - b.z⟩

/-- Componentwise vector sum (`Vector3.add`). -/
def vadd (a b : Vec3) : Vec3 := ⟨a.x + b.x, a.y + b.y, a.z + b.z⟩

/-- Embedding of `Vector3.multiplyScalar`. -/
def vscale (v : Vec3) (s : ℝ) : Vec3 := ⟨v.x * s, v.y * s, v.z * s⟩

/-- Embedding of `THREE.Vector3.applyQuaternion`. -/
def applyQuaternion (q : Quat) (v : Vec3) : Vec3 :=
  let tx := 2 * (q.y * v.z - q.z * v.y)
  let ty := 2 * (q.z * v.x - q.x * v.z)
  let tz := 2 * (q.x * v.y - q.y * v.x)
  ⟨v.x + q.w * tx + q.y * tz - q.z * ty,
   v.y + q.w * ty + q.z * tx - q.x * tz,
   v.z + q.w * tz + q.x * ty - q.y * tx⟩

/-- The parent group a photo frame sits under (the rotating main tree group):
world position and world rotation; its scale is 1 in the scene. -/
structure ParentState where
  position : Vec3
  quaternion : Quat

/-- Embedding of `Object3D.worldToLocal` for a parent with unit scale: undo the parent's
rotation after removing its translation. -/
def worldToLocal (parent : ParentState) (v : Vec3) : Vec3 :=
  applyQuaternion (quatInvert parent.quaternion) (vsub v parent.position)

/-- The camera fields read by the focus branch: world position, forward
direction (`getWorldDirection`) and world rotation. -/
structure CamState where
  position : Vec3
  forward : Vec3
  quaternion : Quat

/-- Embedding of `UserPhotoData` of the types module. -/
structure PhotoData where
  id : String
  url : String
  tree : Vec3
  scatter : Vec3
  rotation : Vec3
  scale : ℝ
  speed : ℝ

/-- The per-frame inputs of one `useFrame` invocation of `PhotoFrame`. -/
structure FrameCtx where
  st : TreeState
  time : ℝ
  cam : CamState
  parent : ParentState
  focusDistance : ℝ

/-- The observable transform state of one photo frame: the lerped position
and scale, together with the sequence of rotation targets handed to the
frame-wise quaternion `slerp` (the quaternion after `n` frames is a function
of the initial quaternion and that sequence). -/
structure PhotoSim where
  pos : Vec3
  scale : ℝ
  rotTargets : List Quat

/-- The target position, rotation and scale computed by the `useFrame` state
machine of `PhotoFrame` (focus / tree / scatter branches, in source order). -/
def photoTargets (st : TreeState) (isFocused : Bool) (d : PhotoData)
    (time : ℝ) (cam : CamState) (parent : ParentState) (focusDistance : ℝ) :
    Vec3 × Quat × ℝ :=
  if st = TreeState.FOCUS ∧ isFocused = true then
    let targetWorldPos := vadd cam.position (vscale cam.forward focusDistance)
    (worldToLocal parent targetWorldPos,
     quatMul (quatInvert parent.quaternion) cam.quaternion,
     2.0)
  else if st = TreeState.TREE_SHAPE then
    (d.tree, quatFromEuler d.rotation.x d.rotation.y d.rotation.z, d.scale)
  else
    (⟨d.scatter.x + Real.cos (time * d.speed * 0.5) * 0.5,
      d.scatter.y + Real.sin (time * d.speed) * 0.5,
      d.scatter.z⟩,
     quatFromEuler (d.rotation.x + time * 0.2) (d.rotation.y + time * 0.3)
       d.rotation.z,
     d.scale)

/-- One `useFrame` invocation of `PhotoFrame`: compute the targets (the
entity is focused when `focusedId === data.id`), then lerp position and
scale by the fixed factor 0.1 and record the rotation target of the slerp. -/
def photoFrame (focusedId : Option String) (d : PhotoData) (f : FrameCtx)
    (sim : PhotoSim) : PhotoSim :=
  let tg := photoTargets f.st (focusedId == some d.id) d f.time f.cam
    f.parent f.focusDistance
  { pos := vec3Lerp sim.pos tg.1 0.1,
    scale := sim.scale + (tg.2.2 - sim.scale) * 0.1,
    rotTargets := sim.rotTargets ++ [tg.2.1] }

/-- A photo frame's transform state after a sequence of frames. -/
def photoSimRun (focusedId : Option String) (d : PhotoData)
    (frames : List FrameCtx) (sim0 : PhotoSim) : PhotoSim :=
  frames.foldl (fun sim f => photoFrame focusedId d f sim) sim0

/-- The 5-second end-to-end schedule: 300 frames at deltaTime 1/60. -/
def fiveSecDeltas : List ℝ := List.replicate 300 (1 / 60)

/-- Scenario: a closed-fist landmark sample (wrist at the origin, every other
landmark 0.05 units away along x). -/
def fistSample : ℕ → Vec3 :=
  fun i => if i = 0 then ⟨0, 0, 0⟩ else ⟨1 / 20, 0, 0⟩

/-- Scenario: a pinch sample ambiguous for the fist and open-hand rules
(fingertips 0.25 from the wrist, thumb 0.02 from the index tip). -/
def pinchSample : ℕ → Vec3 :=
  fun i => if i = 0 then ⟨0, 0, 0⟩
    else if i = 4 then ⟨27 / 100, 0, 0⟩
    else ⟨1 / 4, 0, 0⟩

/-- Scenario: an application state in Scattered mode with nothing focused. -/
def appState0 : AppState := ⟨TreeState.SCATTERED, none, 0, 0⟩

/-- Scenario: a video element that is not ready. -/
def video0 : VideoInfo := ⟨0, true, 0, 0, 0⟩

/-- Scenario: a ready, playing video element with a fresh frame. -/
def video1 : VideoInfo := ⟨2, false, 1, 1, 1⟩

/-- Scenario: a camera at the origin looking down negative z. -/
def cam0 : CamState := ⟨⟨0, 0, 0⟩, ⟨0, 0, -1⟩, ⟨0, 0, 0, 1⟩⟩

/-- Scenario: an identity parent group. -/
def parent0 : ParentState := ⟨⟨0, 0, 0⟩, ⟨0, 0, 0, 1⟩⟩

/-- Scenario: one photo entity. -/
def photoData0 : PhotoData :=
  ⟨"photo-0", "blob:0", ⟨1, 0, 0⟩, ⟨2, 3, 4⟩, ⟨0, 1, 0⟩, 1, 1⟩

/-- Scenario: one scattered-mode frame. -/
def frame0 : FrameCtx := ⟨TreeState.SCATTERED, 0, cam0, parent0, 15⟩

/-- Scenario: a photo frame's transform state at the origin. -/
def photoSim0 : PhotoSim := ⟨⟨0, 0, 0⟩, 1, []⟩

/-- Scenario: an ornament whose two target positions coincide at the origin. -/
def ornament0 : OrnamentData :=
  ⟨OrnamentType.SPHERE, ⟨0, 0, 0⟩, ⟨0, 0, 0⟩, ⟨0, 0, 0⟩, 1, 1, ⟨1, 1, 1⟩⟩

/-! ## Helper lemmas -/

theorem abs_sub_le_abs_add (a b : ℝ) : |a - b| ≤ |a| + |b| := by
  calc |a - b| = |a + -b| := by rw [sub_eq_add_neg]
    _ ≤ |a| + |-b| := abs_add a (-b)
    _ = |a| + |b| := by rw [abs_neg]

theorem abs_cos_le (x : ℝ) : |Real.cos x| ≤ 1 :=
  abs_le.mpr ⟨Real.neg_one_le_cos x, Real.cos_le_one x⟩

theorem abs_sin_le (x : ℝ) : |Real.sin x| ≤ 1 :=
  abs_le.mpr ⟨Real.neg_one_le_sin x, Real.sin_le_one x⟩

/-- A point given by spherical direction angles at distance `r ≥ 0` from the
origin has Euclidean norm `r`. -/
theorem sphere_coord_norm (r θ φ : ℝ) (hr : 0 ≤ r) :
    Real.sqrt ((r * Real.sin φ * Real.cos θ) ^ 2 +
      (r * Real.sin φ * Real.sin θ) ^ 2 + (r * Real.cos φ) ^ 2) = r := by
  have h1 := Real.sin_sq_add_cos_sq θ
  have h2 := Real.sin_sq_add_cos_sq φ
  have hsum : (r * Real.sin φ * Real.cos θ) ^ 2 +
      (r * Real.sin φ * Real.sin θ) ^ 2 + (r * Real.cos φ) ^ 2 = r ^ 2 := by
    linear_combination (r ^ 2 * Real.sin φ ^ 2) * h1 + r ^ 2 * h2
  rw [hsum, Real.sqrt_sq hr]

/-- A point at signed radius `r ≥ 0` and any angle has distance `r` to the
axis. -/
theorem circle_coord_radius (r θ : ℝ) (hr : 0 ≤ r) :
    Real.sqrt ((r * Real.cos θ) ^ 2 + (r * Real.sin θ) ^ 2) = r := by
  have h1 := Real.sin_sq_add_cos_sq θ
  have hsum : (r * Real.cos θ) ^ 2 + (r * Real.sin θ) ^ 2 = r ^ 2 := by
    linear_combination r ^ 2 * h1
  rw [hsum, Real.sqrt_sq hr]

theorem cbrt_nonneg (x : ℝ) (hx : 0 ≤ x) : 0 ≤ cbrt x :=
  Real.rpow_nonneg hx _

theorem cbrt_le_one (x : ℝ) (hx : 0 ≤ x) (hx1 : x ≤ 1) : cbrt x ≤ 1 :=
  Real.rpow_le_one hx hx1 (by norm_num)

theorem cbrt_cube (x : ℝ) (hx : 0 ≤ x) : cbrt x ^ 3 = x := by
  unfold cbrt
  rw [← Real.rpow_natCast (x ^ ((1 : ℝ) / 3)) 3, ← Real.rpow_mul hx]
  norm_num

/-! ## Claim C5: volumetric uniformity of the scatter generator -/

/-- Claim C5: for every radius `r > 0` and every choice of the uniform draws
in `[0,1)`, `getScatterPoint` returns a point whose Euclidean norm is at most
`r`, and the cube of the norm equals the radius draw `w` times `r ^ 3`
(so the cubed norm is uniform over `[0, r^3]` when `w` is uniform). -/
theorem scatter_point_volumetric (radius u v w : ℝ) (hr : 0 < radius)
    (hw0 : 0 ≤ w) (hw1 : w < 1) :
    norm3 (getScatterPoint radius u v w) ≤ radius ∧
    norm3 (getScatterPoint radius u v w) ^ 3 = w * radius ^ 3 := by
  have hkey : norm3 (getScatterPoint radius u v w) = cbrt w * radius := by
    simp only [norm3, getScatterPoint]
    exact sphere_coord_norm (cbrt w * radius) (2 * Real.pi * u)
      (Real.arccos (2 * v - 1)) (mul_nonneg (cbrt_nonneg w hw0) hr.le)
  constructor
  · rw [hkey]
    calc cbrt w * radius ≤ 1 * radius :=
          mul_le_mul_of_nonneg_right (cbrt_le_one w hw0 hw1.le) hr.le
      _ = radius := one_mul radius
  · rw [hkey, mul_pow, cbrt_cube w hw0]

/-- Witness for C5 at radius 1 and all draws 0. -/
theorem scatter_point_volumetric_witness :
    (0 : ℝ) < 1 ∧ (0 : ℝ) ≤ 0 ∧ (0 : ℝ) < 1 ∧
    (norm3 (getScatterPoint 1 0 0 0) ≤ 1 ∧
      norm3 (getScatterPoint 1 0 0 0) ^ 3 = 0 * 1 ^ 3) :=
  ⟨by norm_num, le_refl 0, by norm_num,
    scatter_point_volumetric 1 0 0 0 (by norm_num) (le_refl 0) (by norm_num)⟩

/-! ## Claim C6: bounds of the tree generator -/

/-- Claim C6: for height `h > 0`, base radius `b ≥ 0`, any offset and draws in
`[0,1)`, `getTreePoint` returns a point with `y` in `[yOffset, yOffset + h)`
whose distance to the axis is at most the linearly tapering per-height
maximum `b * (1 - (y - yOffset)/h)` and at least 20 percent of it. -/
theorem tree_point_bounds (height radius yOffset hDraw rDraw tDraw : ℝ)
    (hh : 0 < height) (hb : 0 ≤ radius) (hd0 : 0 ≤ hDraw) (hd1 : hDraw < 1)
    (_hr0 : 0 ≤ rDraw) (hr1 : rDraw < 1) :
    yOffset ≤ (getTreePoint height radius yOffset hDraw rDraw tDraw).y ∧
    (getTreePoint height radius yOffset hDraw rDraw tDraw).y < yOffset + height ∧
    radialDist (getTreePoint height radius yOffset hDraw rDraw tDraw) ≤
      radius * (1 -
        ((getTreePoint height radius yOffset hDraw rDraw tDraw).y - yOffset) / height) ∧
    0.2 * (radius * (1 -
        ((getTreePoint height radius yOffset hDraw rDraw tDraw).y - yOffset) / height)) ≤
      radialDist (getTreePoint height radius yOffset hDraw rDraw tDraw) := by
  have hy : (getTreePoint height radius yOffset hDraw rDraw tDraw).y =
      hDraw * height + yOffset := by
    simp [getTreePoint]
  have hfrac : ((getTreePoint height radius yOffset hDraw rDraw tDraw).y - yOffset) /
      height = hDraw := by
    rw [hy]
    field_simp
  have hmaxR0 : 0 ≤ radius * (1 - hDraw) := by nlinarith
  have hsq0 : 0 ≤ Real.sqrt rDraw := Real.sqrt_nonneg rDraw
  have hsq1 : Real.sqrt rDraw ≤ 1 := by
    calc Real.sqrt rDraw ≤ Real.sqrt 1 := Real.sqrt_le_sqrt hr1.le
      _ = 1 := Real.sqrt_one
  have hrr0 : 0 ≤ radius * (1 - hDraw) * (0.2 + 0.8 * Real.sqrt rDraw) := by
    nlinarith
  have hrad : radialDist (getTreePoint height radius yOffset hDraw rDraw tDraw) =
      radius * (1 - hDraw) * (0.2 + 0.8 * Real.sqrt rDraw) := by
    simp only [radialDist, getTreePoint]
    exact circle_coord_radius _ (tDraw * Real.pi * 2) hrr0
  refine ⟨?_, ?_, ?_, ?_⟩
  · rw [hy]; nlinarith
  · rw [hy]; nlinarith
  · rw [hrad, hfrac]; nlinarith
  · rw [hrad, hfrac]; nlinarith

/-- Witness for C6 at height 1, radius 1, offset 0 and all draws 0. -/
theorem tree_point_bounds_witness :
    (0 : ℝ) < 1 ∧ (0 : ℝ) ≤ 1 ∧
    (0 ≤ (getTreePoint 1 1 0 0 0 0).y ∧
     (getTreePoint 1 1 0 0 0 0).y < 0 + 1 ∧
     radialDist (getTreePoint 1 1 0 0 0 0) ≤
       1 * (1 - ((getTreePoint 1 1 0 0 0 0).y - 0) / 1) ∧
     0.2 * (1 * (1 - ((getTreePoint 1 1 0 0 0 0).y - 0) / 1)) ≤
       radialDist (getTreePoint 1 1 0 0 0 0)) :=
  ⟨by norm_num, by norm_num,
    tree_point_bounds 1 1 0 0 0 0 (by norm_num) (by norm_num) (le_refl 0)
      (by norm_num) (le_refl 0) (by norm_num)⟩

/-! ## Claim C1 (corrected): the morph clock -/

/-- Claim C1 counterexample: the code applies the exponential smoothing step
without clamping the blend factor, so a single frame with deltaTime 1 second
(blend factor 1.5) drives the progress from 0 to 1.5, above 1 — the claim's
bound for arbitrary non-negative deltaTime sequences fails. -/
theorem morph_overshoot_cx :
    morphRun ornamentMorphSpeed 1 0 [1] = 3 / 2 ∧
    ¬ morphRun ornamentMorphSpeed 1 0 [1] ≤ 1 := by
  constructor
  · norm_num [morphRun, morphStep, mathLerp, ornamentMorphSpeed]
  · norm_num [morphRun, morphStep, mathLerp, ornamentMorphSpeed]

/-- Claim C1 amended: with target 1 held constant, for any deltaTime sequence
whose every step satisfies `0 ≤ speed * d ≤ 1` (the spec's own smoothing-rate
condition), the morph progress stays in `[0, 1]`, increases monotonically
frame over frame, and approaches 1 as the summed time grows: the residual
`1 - progress` is at most `(1 - start) * exp (-(speed * T))`. -/
theorem morph_clock_amended (speed : ℝ) (ds : List ℝ) :
    ∀ p : ℝ, 0 ≤ p → p ≤ 1 →
    (∀ d ∈ ds, 0 ≤ speed * d ∧ speed * d ≤ 1) →
    0 ≤ morphRun speed 1 p ds ∧ morphRun speed 1 p ds ≤ 1 ∧
    p ≤ morphRun speed 1 p ds ∧
    1 - morphRun speed 1 p ds ≤ (1 - p) * Real.exp (-(speed * ds.sum)) := by
  induction ds with
  | nil =>
    intro p hp0 hp1 _
    refine ⟨?_, ?_, ?_, ?_⟩ <;>
      simp [morphRun, hp0, hp1]
  | cons d ds ih =>
    intro p hp0 hp1 hds
    obtain ⟨hk0, hk1⟩ := hds d (List.mem_cons_self d ds)
    have hds' : ∀ e ∈ ds, 0 ≤ speed * e ∧ speed * e ≤ 1 :=
      fun e he => hds e (List.mem_cons_of_mem d he)
    have hq0 : 0 ≤ morphStep speed p 1 d := by
      simp only [morphStep, mathLerp]; nlinarith
    have hq1 : morphStep speed p 1 d ≤ 1 := by
      simp only [morphStep, mathLerp]; nlinarith
    have hpq : p ≤ morphStep speed p 1 d := by
      simp only [morphStep, mathLerp]; nlinarith
    obtain ⟨ih0, ih1, ihmono, ihres⟩ :=
      ih (morphStep speed p 1 d) hq0 hq1 hds'
    have hrun : morphRun speed 1 p (d :: ds) =
        morphRun speed 1 (morphStep speed p 1 d) ds := rfl
    refine ⟨?_, ?_, ?_, ?_⟩
    · rw [hrun]; exact ih0
    · rw [hrun]; exact ih1
    · rw [hrun]; exact le_trans hpq ihmono
    · have hexpk : 1 - speed * d ≤ Real.exp (-(speed * d)) := by
        have h := Real.add_one_le_exp (-(speed * d))
        linarith
      have h1q : 1 - morphStep speed p 1 d = (1 - p) * (1 - speed * d) := by
        simp only [morphStep, mathLerp]; ring
      calc 1 - morphRun speed 1 p (d :: ds)
          = 1 - morphRun speed 1 (morphStep speed p 1 d) ds := by rw [hrun]
        _ ≤ (1 - morphStep speed p 1 d) * Real.exp (-(speed * ds.sum)) := ihres
        _ = (1 - p) * (1 - speed * d) * Real.exp (-(speed * ds.sum)) := by
            rw [h1q]
        _ ≤ (1 - p) * Real.exp (-(speed * d)) * Real.exp (-(speed * ds.sum)) := by
            have h1p : (0 : ℝ) ≤ 1 - p := by linarith
            have := mul_le_mul_of_nonneg_left hexpk h1p
            exact mul_le_mul_of_nonneg_right this (Real.exp_nonneg _)
        _ = (1 - p) * Real.exp (-(speed * (d :: ds).sum)) := by
            rw [mul_assoc, ← Real.exp_add, List.sum_cons]
            ring_nf

/-- Witness for the amended C1 at the ornament group's smoothing rate, one
frame of deltaTime 1/60 from progress 0. -/
theorem morph_clock_amended_witness :
    (∀ d ∈ [(1 : ℝ) / 60], 0 ≤ ornamentMorphSpeed * d ∧ ornamentMorphSpeed * d ≤ 1) ∧
    (0 ≤ morphRun ornamentMorphSpeed 1 0 [(1 : ℝ) / 60] ∧
     morphRun ornamentMorphSpeed 1 0 [(1 : ℝ) / 60] ≤ 1 ∧
     0 ≤ morphRun ornamentMorphSpeed 1 0 [(1 : ℝ) / 60] ∧
     1 - morphRun ornamentMorphSpeed 1 0 [(1 : ℝ) / 60] ≤
       (1 - 0) * Real.exp (-(ornamentMorphSpeed * [(1 : ℝ) / 60].sum))) := by
  have h : ∀ d ∈ [(1 : ℝ) / 60],
      0 ≤ ornamentMorphSpeed * d ∧ ornamentMorphSpeed * d ≤ 1 := by
    intro d hd
    simp only [List.mem_singleton] at hd
    subst hd
    constructor <;> norm_num [ornamentMorphSpeed]
  exact ⟨h, morph_clock_amended ornamentMorphSpeed [(1 : ℝ) / 60] 0
    (le_refl 0) (by norm_num) h⟩

/-! ## Claim C4: the 5-second end-to-end formation run -/

/-- Closed form of the morph clock under a constant frame time. -/
theorem morphRun_replicate (speed d p : ℝ) (n : ℕ) :
    morphRun speed 1 p (List.replicate n d) =
      1 - (1 - p) * (1 - speed * d) ^ n := by
  induction n generalizing p with
  | zero => simp [morphRun]
  | succ n ih =>
    rw [List.replicate_succ]
    have hrun : morphRun speed 1 p (d :: List.replicate n d) =
        morphRun speed 1 (morphStep speed p 1 d) (List.replicate n d) := rfl
    rw [hrun, ih]
    simp only [morphStep, mathLerp]
    ring

/-- Claim C4: starting from progress 0 in Scattered mode, 300 frames at
deltaTime 1/60 with target Formed leave the ornament morph progress above
0.95; every ornament generated by the program (scatter inside radius 20,
tree target inside the pushed-out cone, per-axis bound 6) then sits within
0.05 scene units of its formed target, and the idle-motion jitter amplitude
at progress 1 is below 0.05. -/
theorem end_to_end_formation :
    0.95 < morphRun ornamentMorphSpeed 1 0 fiveSecDeltas ∧
    (∀ (item : OrnamentData) (i : ℕ) (time : ℝ),
      |item.scatter.x| ≤ 20 → |item.scatter.y| ≤ 20 → |item.scatter.z| ≤ 20 →
      |item.tree.x| ≤ 6 → |item.tree.y| ≤ 6 → |item.tree.z| ≤ 6 →
      dist3 (ornamentPosition item i
          (morphRun ornamentMorphSpeed 1 0 fiveSecDeltas) time) item.tree
        < 0.05) ∧
    floatAmplitude 1 < 0.05 := by
  have hT : morphRun ornamentMorphSpeed 1 0 fiveSecDeltas =
      1 - ((39 : ℝ) / 40) ^ 300 := by
    rw [fiveSecDeltas, morphRun_replicate]
    norm_num [ornamentMorphSpeed]
  set ε : ℝ := ((39 : ℝ) / 40) ^ 300 with hεdef
  clear_value ε
  have hε0 : 0 < ε := by rw [hεdef]; positivity
  have hε1 : ε < 1 / 1000 := by rw [hεdef]; norm_num
  refine ⟨?_, ?_, ?_⟩
  · rw [hT]; linarith
  · intro item i time hsx hsy hsz htx hty htz
    rw [hT]
    have hax : |item.scatter.x - item.tree.x| ≤ 26 :=
      (abs_sub_le_abs_add _ _).trans (by linarith)
    have hay : |item.scatter.y - item.tree.y| ≤ 26 :=
      (abs_sub_le_abs_add _ _).trans (by linarith)
    have haz : |item.scatter.z - item.tree.z| ≤ 26 :=
      (abs_sub_le_abs_add _ _).trans (by linarith)
    have hΔx : (ornamentPosition item i (1 - ε) time).x - item.tree.x =
        (item.scatter.x - item.tree.x) * ε +
          Real.cos (time * item.speed * 0.5 + (i : ℝ)) * (ε * 0.5) := by
      simp only [ornamentPosition, lerpVectors, floatAmplitude]
      ring
    have hΔy : (ornamentPosition item i (1 - ε) time).y - item.tree.y =
        (item.scatter.y - item.tree.y) * ε +
          Real.sin (time * item.speed + (i : ℝ)) * (ε * 0.5) := by
      simp only [ornamentPosition, lerpVectors, floatAmplitude]
      ring
    have hΔz : (ornamentPosition item i (1 - ε) time).z - item.tree.z =
        (item.scatter.z - item.tree.z) * ε := by
      simp only [ornamentPosition, lerpVectors, floatAmplitude]
      ring
    have hbx : |(ornamentPosition item i (1 - ε) time).x - item.tree.x| ≤
        26.5 * ε := by
      rw [hΔx]
      calc |(item.scatter.x - item.tree.x) * ε +
            Real.cos (time * item.speed * 0.5 + (i : ℝ)) * (ε * 0.5)|
          ≤ |(item.scatter.x - item.tree.x) * ε| +
            |Real.cos (time * item.speed * 0.5 + (i : ℝ)) * (ε * 0.5)| :=
            abs_add _ _
        _ = |item.scatter.x - item.tree.x| * ε +
            |Real.cos (time * item.speed * 0.5 + (i : ℝ))| * (ε * 0.5) := by
            rw [abs_mul, abs_mul, abs_of_nonneg hε0.le,
              abs_of_nonneg (by positivity : (0 : ℝ) ≤ ε * 0.5)]
        _ ≤ 26 * ε + 1 * (ε * 0.5) :=
            add_le_add (mul_le_mul_of_nonneg_right hax hε0.le)
              (mul_le_mul_of_nonneg_right (abs_cos_le _) (by positivity))
        _ = 26.5 * ε := by ring
    have hby : |(ornamentPosition item i (1 - ε) time).y - item.tree.y| ≤
        26.5 * ε := by
      rw [hΔy]
      calc |(item.scatter.y - item.tree.y) * ε +
            Real.sin (time * item.speed + (i : ℝ)) * (ε * 0.5)|
          ≤ |(item.scatter.y - item.tree.y) * ε| +
            |Real.sin (time * item.speed + (i : ℝ)) * (ε * 0.5)| := abs_add _ _
        _ = |item.scatter.y - item.tree.y| * ε +
            |Real.sin (time * item.speed + (i : ℝ))| * (ε * 0.5) := by
            rw [abs_mul, abs_mul, abs_of_nonneg hε0.le,
              abs_of_nonneg (by positivity : (0 : ℝ) ≤ ε * 0.5)]
        _ ≤ 26 * ε + 1 * (ε * 0.5) :=
            add_le_add (mul_le_mul_of_nonneg_right hay hε0.le)
              (mul_le_mul_of_nonneg_right (abs_sin_le _) (by positivity))
        _ = 26.5 * ε := by ring
    have hbz : |(ornamentPosition item i (1 - ε) time).z - item.tree.z| ≤
        26 * ε := by
      rw [hΔz, abs_mul, abs_of_nonneg hε0.le]
      exact mul_le_mul_of_nonneg_right haz hε0.le
    have hx2 : ((ornamentPosition item i (1 - ε) time).x - item.tree.x) ^ 2 ≤
        (26.5 * ε) ^ 2 := by
      rw [← sq_abs]
      exact pow_le_pow_left₀ (abs_nonneg _) hbx 2
    have hy2 : ((ornamentPosition item i (1 - ε) time).y - item.tree.y) ^ 2 ≤
        (26.5 * ε) ^ 2 := by
      rw [← sq_abs]
      exact pow_le_pow_left₀ (abs_nonneg _) hby 2
    have hz2 : ((ornamentPosition item i (1 - ε) time).z - item.tree.z) ^ 2 ≤
        (26 * ε) ^ 2 := by
      rw [← sq_abs]
      exact pow_le_pow_left₀ (abs_nonneg _) hbz 2
    have hε2 : ε ^ 2 < (1 / 1000 : ℝ) ^ 2 := by nlinarith
    simp only [dist3]
    refine (Real.sqrt_lt' (by norm_num : (0 : ℝ) < 0.05)).mpr ?_
    have hgoal : (26.5 * ε) ^ 2 + (26.5 * ε) ^ 2 + (26 * ε) ^ 2 <
        (0.05 : ℝ) ^ 2 := by nlinarith [hε2]
    linarith [hx2, hy2, hz2, hgoal]
  · norm_num [floatAmplitude]

/-- Witness for C4 at a concrete ornament. -/
theorem end_to_end_formation_witness :
    |ornament0.scatter.x| ≤ 20 ∧ |ornament0.scatter.y| ≤ 20 ∧
    |ornament0.scatter.z| ≤ 20 ∧ |ornament0.tree.x| ≤ 6 ∧
    |ornament0.tree.y| ≤ 6 ∧ |ornament0.tree.z| ≤ 6 ∧
    dist3 (ornamentPosition ornament0 0
        (morphRun ornamentMorphSpeed 1 0 fiveSecDeltas) 0) ornament0.tree
      < 0.05 := by
  have h1 : |ornament0.scatter.x| ≤ 20 := by norm_num [ornament0]
  have h2 : |ornament0.scatter.y| ≤ 20 := by norm_num [ornament0]
  have h3 : |ornament0.scatter.z| ≤ 20 := by norm_num [ornament0]
  have h4 : |ornament0.tree.x| ≤ 6 := by norm_num [ornament0]
  have h5 : |ornament0.tree.y| ≤ 6 := by norm_num [ornament0]
  have h6 : |ornament0.tree.z| ≤ 6 := by norm_num [ornament0]
  exact ⟨h1, h2, h3, h4, h5, h6,
    end_to_end_formation.2.1 ornament0 0 0 h1 h2 h3 h4 h5 h6⟩

/-! ## Claims C2 and C3: the gesture classifier -/

/-- The mode produced by `detectGestures`, read off the if-else chain (the
trailing rotation section does not touch the mode). -/
theorem detectGestures_mode_eq (lm : ℕ → Vec3) (n : ℕ) (u : ℝ) (s : AppState) :
    (detectGestures lm n u s).mode =
      if avgTipWristDist lm < 0.15 then TreeState.TREE_SHAPE
      else if avgTipWristDist lm > 0.35 then TreeState.SCATTERED
      else if pinchDist lm < 0.05 then
        if s.mode ≠ TreeState.FOCUS ∧ 0 < n then TreeState.FOCUS else s.mode
      else s.mode := by
  simp only [detectGestures]
  split <;> split <;> try split
  all_goals try split
  all_goals try split
  all_goals simp

/-- The focused id produced by `detectGestures` (only the pinch branch
writes it). -/
theorem detectGestures_focusedId_eq (lm : ℕ → Vec3) (n : ℕ) (u : ℝ)
    (s : AppState) :
    (detectGestures lm n u s).focusedId =
      if avgTipWristDist lm < 0.15 then s.focusedId
      else if avgTipWristDist lm > 0.35 then s.focusedId
      else if pinchDist lm < 0.05 then
        if s.mode ≠ TreeState.FOCUS ∧ 0 < n then
          some (photoId (Nat.floor (u * (n : ℝ))))
        else s.focusedId
      else s.focusedId := by
  simp only [detectGestures]
  split <;> split <;> try split
  all_goals try split
  all_goals try split
  all_goals simp

/-- Claim C2: a fist sample (average fingertip-to-wrist distance below 0.15)
always yields mode Formed, regardless of the pinch distance (the fist rule
has priority); an ambiguous-free open sample (average above 0.35) yields
Scattered; and re-classifying the same fist sample from the resulting state
leaves the mode Formed — the mode never toggles. -/
theorem fist_classifier_formed (lm : ℕ → Vec3) (n : ℕ) (u : ℝ) (s : AppState) :
    (avgTipWristDist lm < 0.15 →
      (detectGestures lm n u s).mode = TreeState.TREE_SHAPE) ∧
    (¬ avgTipWristDist lm < 0.15 → avgTipWristDist lm > 0.35 →
      (detectGestures lm n u s).mode = TreeState.SCATTERED) ∧
    (avgTipWristDist lm < 0.15 →
      (detectGestures lm n u (detectGestures lm n u s)).mode =
        TreeState.TREE_SHAPE) := by
  refine ⟨?_, ?_, ?_⟩
  · intro h
    rw [detectGestures_mode_eq, if_pos h]
  · intro h1 h2
    rw [detectGestures_mode_eq, if_neg h1, if_pos h2]
  · intro h
    rw [detectGestures_mode_eq, if_pos h]

/-- Witness for C2 at the concrete fist sample. -/
theorem fist_classifier_formed_witness :
    avgTipWristDist fistSample < 0.15 ∧
    (detectGestures fistSample 0 0 appState0).mode = TreeState.TREE_SHAPE ∧
    (detectGestures fistSample 0 0
        (detectGestures fistSample 0 0 appState0)).mode =
      TreeState.TREE_SHAPE := by
  have hd : dist3 ⟨1 / 20, 0, 0⟩ ⟨0, 0, 0⟩ = 1 / 20 := by
    simp only [dist3]
    rw [show ((1 / 20 : ℝ) - 0) ^ 2 + ((0 : ℝ) - 0) ^ 2 + ((0 : ℝ) - 0) ^ 2 =
      ((1 / 20 : ℝ)) ^ 2 from by norm_num]
    exact Real.sqrt_sq (by norm_num)
  have h : avgTipWristDist fistSample < 0.15 := by
    have hfs : ∀ i : ℕ, i ≠ 0 → fistSample i = ⟨1 / 20, 0, 0⟩ :=
      fun i hi => by simp [fistSample, hi]
    simp only [avgTipWristDist]
    rw [hfs 8 (by norm_num), hfs 12 (by norm_num), hfs 16 (by norm_num),
      hfs 20 (by norm_num), show fistSample 0 = ⟨0, 0, 0⟩ from by simp [fistSample],
      hd]
    norm_num
  exact ⟨h, (fist_classifier_formed fistSample 0 0 appState0).1 h,
    (fist_classifier_formed fistSample 0 0 appState0).2.2 h⟩

/-- Claim C3: on a sample ambiguous for the fist and open-hand rules
(average in [0.15, 0.35]) with pinch distance below 0.05 and draw in [0,1):
when the mode is not Focus and a photo exists, the classifier moves to Focus
and assigns the id of an existing photo (`photo-i` with `i` below the photo
count); when the mode is already Focus or no photo exists, mode and focused
id are unchanged. -/
theorem pinch_focus_transition (lm : ℕ → Vec3) (n : ℕ) (u : ℝ) (s : AppState)
    (h1 : 0.15 ≤ avgTipWristDist lm) (h2 : avgTipWristDist lm ≤ 0.35)
    (h3 : pinchDist lm < 0.05) (hu0 : 0 ≤ u) (hu1 : u < 1) :
    (s.mode ≠ TreeState.FOCUS → 0 < n →
      (detectGestures lm n u s).mode = TreeState.FOCUS ∧
      ∃ i : ℕ, i < n ∧ (detectGestures lm n u s).focusedId = some (photoId i)) ∧
    ((s.mode = TreeState.FOCUS ∨ n = 0) →
      (detectGestures lm n u s).mode = s.mode ∧
      (detectGestures lm n u s).focusedId = s.focusedId) := by
  have hn1 : ¬ avgTipWristDist lm < 0.15 := not_lt.mpr h1
  have hn2 : ¬ avgTipWristDist lm > 0.35 := not_lt.mpr h2
  constructor
  · intro hmode hn
    have hcond : s.mode ≠ TreeState.FOCUS ∧ 0 < n := ⟨hmode, hn⟩
    refine ⟨?_, Nat.floor (u * (n : ℝ)), ?_, ?_⟩
    · rw [detectGestures_mode_eq, if_neg hn1, if_neg hn2, if_pos h3,
        if_pos hcond]
    · have hlt : u * (n : ℝ) < (n : ℝ) := by
        have hn' : (0 : ℝ) < (n : ℝ) := by exact_mod_cast hn
        nlinarith
      exact (Nat.floor_lt (by positivity)).mpr hlt
    · rw [detectGestures_focusedId_eq, if_neg hn1, if_neg hn2, if_pos h3,
        if_pos hcond]
  · intro hor
    have hcond : ¬ (s.mode ≠ TreeState.FOCUS ∧ 0 < n) := by
      rcases hor with hfoc | hzero
      · intro hc; exact hc.1 hfoc
      · intro hc; omega
    constructor
    · rw [detectGestures_mode_eq, if_neg hn1, if_neg hn2, if_pos h3,
        if_neg hcond]
    · rw [detectGestures_focusedId_eq, if_neg hn1, if_neg hn2, if_pos h3,
        if_neg hcond]

/-- Witness for C3 at the concrete pinch sample, prior mode Scattered,
three photos, draw 0. -/
theorem pinch_focus_transition_witness :
    0.15 ≤ avgTipWristDist pinchSample ∧ avgTipWristDist pinchSample ≤ 0.35 ∧
    pinchDist pinchSample < 0.05 ∧
    (detectGestures pinchSample 3 0 appState0).mode = TreeState.FOCUS ∧
    ∃ i : ℕ, i < 3 ∧
      (detectGestures pinchSample 3 0 appState0).focusedId = some (photoId i) := by
  have hq : dist3 ⟨1 / 4, 0, 0⟩ ⟨0, 0, 0⟩ = 1 / 4 := by
    simp only [dist3]
    rw [show ((1 / 4 : ℝ) - 0) ^ 2 + ((0 : ℝ) - 0) ^ 2 + ((0 : ℝ) - 0) ^ 2 =
      ((1 / 4 : ℝ)) ^ 2 from by norm_num]
    exact Real.sqrt_sq (by norm_num)
  have hp : dist3 ⟨27 / 100, 0, 0⟩ ⟨1 / 4, 0, 0⟩ = 1 / 50 := by
    simp only [dist3]
    rw [show ((27 / 100 : ℝ) - 1 / 4) ^ 2 + ((0 : ℝ) - 0) ^ 2 + ((0 : ℝ) - 0) ^ 2 =
      ((1 / 50 : ℝ)) ^ 2 from by norm_num]
    exact Real.sqrt_sq (by norm_num)
  have hps : ∀ i : ℕ, i ≠ 0 → i ≠ 4 → pinchSample i = ⟨1 / 4, 0, 0⟩ :=
    fun i hi hi4 => by simp [pinchSample, hi, hi4]
  have hps0 : pinchSample 0 = ⟨0, 0, 0⟩ := by simp [pinchSample]
  have hps4 : pinchSample 4 = ⟨27 / 100, 0, 0⟩ := by simp [pinchSample]
  have havg : avgTipWristDist pinchSample = 1 / 4 := by
    simp only [avgTipWristDist]
    rw [hps 8 (by norm_num) (by norm_num), hps 12 (by norm_num) (by norm_num),
      hps 16 (by norm_num) (by norm_num), hps 20 (by norm_num) (by norm_num),
      hps0, hq]
    norm_num
  have h1 : 0.15 ≤ avgTipWristDist pinchSample := by rw [havg]; norm_num
  have h2 : avgTipWristDist pinchSample ≤ 0.35 := by rw [havg]; norm_num
  have h3 : pinchDist pinchSample < 0.05 := by
    simp only [pinchDist]
    rw [hps4, hps 8 (by norm_num) (by norm_num), hp]
    norm_num
  have hmain := (pinch_focus_transition pinchSample 3 0 appState0 h1 h2 h3
    (le_refl 0) (by norm_num)).1 (by simp [appState0]) (by norm_num)
  exact ⟨h1, h2, h3, hmain.1, hmain.2⟩

/-! ## Claim C7: no state change without a signal -/

/-- Claim C7: when the gating check fails (no fresh playable frame), when
inference throws, or when zero hands are detected, the per-frame tick leaves
the application state — mode, focused id and rotation-control signal —
exactly as it was; the error is swallowed and the tick returns normally. -/
theorem tick_no_signal_noop (visionEnabled hasLandmarker hasVideo : Bool)
    (v : VideoInfo) (lastVideoTime : ℝ)
    (inference : Except Unit (List (ℕ → Vec3))) (n : ℕ) (u : ℝ) (s : AppState) :
    (¬ frameGate visionEnabled hasLandmarker hasVideo v lastVideoTime →
      frameTick visionEnabled hasLandmarker hasVideo v lastVideoTime
        inference n u s = (s, lastVideoTime)) ∧
    (∀ e : Unit, inference = Except.error e →
      (frameTick visionEnabled hasLandmarker hasVideo v lastVideoTime
        inference n u s).1 = s) ∧
    (inference = Except.ok [] →
      (frameTick visionEnabled hasLandmarker hasVideo v lastVideoTime
        inference n u s).1 = s) := by
  refine ⟨?_, ?_, ?_⟩
  · intro hg
    simp [frameTick, hg]
  · intro e he
    subst he
    simp only [frameTick]
    split <;> rfl
  · intro he
    subst he
    simp only [frameTick]
    split <;> rfl

/-- Witness for C7: a disabled feed, a thrown inference, and an empty
detection each leave the state untouched. -/
theorem tick_no_signal_noop_witness :
    (¬ frameGate false false false video0 0) ∧
    frameTick false false false video0 0 (Except.error ()) 0 0 appState0 =
      (appState0, 0) ∧
    (frameTick true true true video1 0 (Except.error ()) 0 0 appState0).1 =
      appState0 ∧
    (frameTick true true true video1 0 (Except.ok []) 0 0 appState0).1 =
      appState0 := by
  have hg : ¬ frameGate false false false video0 0 := by
    simp [frameGate]
  refine ⟨hg, ?_, ?_, ?_⟩
  · exact (tick_no_signal_noop false false false video0 0 (Except.error ())
      0 0 appState0).1 hg
  · exact (tick_no_signal_noop true true true video1 0 (Except.error ())
      0 0 appState0).2.1 () rfl
  · exact (tick_no_signal_noop true true true video1 0 (Except.ok [])
      0 0 appState0).2.2 rfl

/-! ## Claim C8: the focus zoom distance -/

theorem zoomStep_mem (d dy : ℝ) : 5 ≤ zoomStep d dy ∧ zoomStep d dy ≤ 40 := by
  unfold zoomStep clampNum
  constructor
  · exact le_max_left _ _
  · exact max_le (by norm_num) (min_le_left _ _)

theorem zoomRun_mem (ds : List ℝ) : ∀ d : ℝ, 5 ≤ d → d ≤ 40 →
    5 ≤ zoomRun d ds ∧ zoomRun d ds ≤ 40 := by
  induction ds with
  | nil => intro d h5 h40; exact ⟨h5, h40⟩
  | cons dy ds ih =>
    intro d h5 h40
    have hstep := zoomStep_mem d dy
    have hrun : zoomRun d (dy :: ds) = zoomRun (zoomStep d dy) ds := rfl
    rw [hrun]
    exact ih (zoomStep d dy) hstep.1 hstep.2

theorem zoomRun_linear (ds : List ℝ) : ∀ d : ℝ, UnclampedRun d ds →
    zoomRun d ds = d + zoomSpeed * ds.sum := by
  induction ds with
  | nil => intro d _; simp [zoomRun]
  | cons dy ds ih =>
    intro d hun
    obtain ⟨⟨hlo, hhi⟩, hrest⟩ := hun
    have hstep : zoomStep d dy = d + dy * zoomSpeed := by
      unfold zoomStep clampNum
      rw [min_eq_right hhi, max_eq_right hlo]
    have hrun : zoomRun d (dy :: ds) = zoomRun (zoomStep d dy) ds := rfl
    rw [hrun, hstep] at *
    rw [ih (d + dy * zoomSpeed) hrest, List.sum_cons]
    ring

/-- Claim C8: the focus zoom distance starts at the default 15, inside the
clamp bounds [5, 40]; from any in-bounds distance it remains inside [5, 40]
under every wheel sequence; and a wheel sequence whose unclamped updates
never reach a clamp boundary moves the distance by exactly `0.02` times the
summed deltas, so a zero-sum sequence returns it to its starting value. -/
theorem focus_zoom_props :
    (focusDistanceDefault = 15 ∧ 5 ≤ focusDistanceDefault ∧
      focusDistanceDefault ≤ 40) ∧
    (∀ (d : ℝ) (ds : List ℝ), 5 ≤ d → d ≤ 40 →
      5 ≤ zoomRun d ds ∧ zoomRun d ds ≤ 40) ∧
    (∀ (d : ℝ) (ds : List ℝ), UnclampedRun d ds →
      zoomRun d ds = d + zoomSpeed * ds.sum) ∧
    (∀ (d : ℝ) (ds : List ℝ), UnclampedRun d ds → ds.sum = 0 →
      zoomRun d ds = d) := by
  refine ⟨⟨rfl, by norm_num [focusDistanceDefault],
    by norm_num [focusDistanceDefault]⟩, ?_, ?_, ?_⟩
  · intro d ds h5 h40
    exact zoomRun_mem ds d h5 h40
  · intro d ds hun
    exact zoomRun_linear ds d hun
  · intro d ds hun hsum
    rw [zoomRun_linear ds d hun, hsum, mul_zero, add_zero]

/-- Witness for C8: from the default distance, deltas +100 then -100 stay
clear of the boundaries and return the distance to exactly 15. -/
theorem focus_zoom_props_witness :
    (5 : ℝ) ≤ 15 ∧ (15 : ℝ) ≤ 40 ∧
    UnclampedRun 15 [(100 : ℝ), -100] ∧ ([(100 : ℝ), -100]).sum = 0 ∧
    (5 ≤ zoomRun 15 [(100 : ℝ), -100] ∧ zoomRun 15 [(100 : ℝ), -100] ≤ 40) ∧
    zoomRun 15 [(100 : ℝ), -100] = 15 := by
  have hun : UnclampedRun 15 [(100 : ℝ), -100] := by
    refine ⟨⟨?_, ?_⟩, ⟨?_, ?_⟩, trivial⟩ <;> norm_num [zoomSpeed]
  have hsum : ([(100 : ℝ), -100]).sum = 0 := by norm_num
  refine ⟨by norm_num, by norm_num, hun, hsum, ?_, ?_⟩
  · exact focus_zoom_props.2.1 15 [(100 : ℝ), -100] (by norm_num) (by norm_num)
  · exact focus_zoom_props.2.2.2 15 [(100 : ℝ), -100] hun hsum

/-! ## Claim C9 (corrected): morph progress of regenerated groups -/

/-- Claim C9 counterexample: a group created while the mode is Formed starts
at morph progress 0 (`userData.morphValue` is set to 0 whenever undefined),
not at the value 1 implied by the Formed mode — the claim's mode-consistent
start fails. -/
theorem regen_progress_cx :
    initialMorphValue ≠ morphTargetOf TreeState.TREE_SHAPE := by
  simp [initialMorphValue, morphTargetOf]

/-- Claim C9 amended: a freshly created group always starts at morph
progress 0 — the value implied by the Scattered mode — regardless of the
current mode; the first frames move it smoothly toward the target without
overshoot (no discontinuity, but a group created in Formed mode does restart
from the scattered configuration); and appending a new group leaves every
existing group's morph value untouched. -/
theorem regen_progress_amended :
    initialMorphValue = morphTargetOf TreeState.SCATTERED ∧
    (∀ (gs : List ℝ) (speed target delta : ℝ),
      stepAllGroups (gs ++ [initialMorphValue]) speed target delta =
        stepAllGroups gs speed target delta ++
          [morphStep speed initialMorphValue target delta]) ∧
    (∀ k : ℝ, 0 ≤ k → k ≤ 1 →
      initialMorphValue ≤ mathLerp initialMorphValue 1 k ∧
      mathLerp initialMorphValue 1 k ≤ 1) := by
  refine ⟨by simp [initialMorphValue, morphTargetOf], ?_, ?_⟩
  · intro gs speed target delta
    simp [stepAllGroups]
  · intro k hk0 hk1
    constructor <;> simp only [mathLerp, initialMorphValue] <;> nlinarith

/-- Witness for the amended C9 at blend factor 1/2. -/
theorem regen_progress_amended_witness :
    (0 : ℝ) ≤ 1 / 2 ∧ (1 / 2 : ℝ) ≤ 1 ∧
    (initialMorphValue ≤ mathLerp initialMorphValue 1 (1 / 2) ∧
      mathLerp initialMorphValue 1 (1 / 2) ≤ 1) :=
  ⟨by norm_num, by norm_num,
    regen_progress_amended.2.2 (1 / 2) (by norm_num) (by norm_num)⟩

/-! ## Claim C10: the focused id is ignored outside Focus mode -/

/-- Outside Focus mode, the targets of a photo frame do not depend on
whether the frame is the focused one. -/
theorem photoTargets_not_focus (st : TreeState) (hst : st ≠ TreeState.FOCUS)
    (b1 b2 : Bool) (d : PhotoData) (time : ℝ) (cam : CamState)
    (parent : ParentState) (fd1 fd2 : ℝ) :
    photoTargets st b1 d time cam parent fd1 =
      photoTargets st b2 d time cam parent fd2 := by
  unfold photoTargets
  have h1 : ¬ (st = TreeState.FOCUS ∧ b1 = true) := fun h => hst h.1
  have h2 : ¬ (st = TreeState.FOCUS ∧ b2 = true) := fun h => hst h.1
  rw [if_neg h1, if_neg h2]

/-- Claim C10: two executions of a photo frame's per-frame animation that are
identical except for the focused entity id (and the focus zoom distance it
controls) produce identical transforms — position, scale and the rotation
target handed to the slerp — on every frame, provided the mode is never
Focus during the run. -/
theorem focus_id_noninterference (d : PhotoData) (fid1 fid2 : Option String)
    (frames : List FrameCtx) :
    (∀ f ∈ frames, f.st ≠ TreeState.FOCUS) →
    ∀ sim0 : PhotoSim,
      photoSimRun fid1 d frames sim0 = photoSimRun fid2 d frames sim0 := by
  induction frames with
  | nil => intro _ sim0; rfl
  | cons f fs ih =>
    intro h sim0
    have hf : f.st ≠ TreeState.FOCUS := h f (List.mem_cons_self f fs)
    have hfs : ∀ g ∈ fs, g.st ≠ TreeState.FOCUS :=
      fun g hg => h g (List.mem_cons_of_mem f hg)
    have hstep : photoFrame fid1 d f sim0 = photoFrame fid2 d f sim0 := by
      unfold photoFrame
      rw [photoTargets_not_focus f.st hf (fid1 == some d.id) (fid2 == some d.id)
        d f.time f.cam f.parent f.focusDistance f.focusDistance]
    have hrun1 : photoSimRun fid1 d (f :: fs) sim0 =
        photoSimRun fid1 d fs (photoFrame fid1 d f sim0) := rfl
    have hrun2 : photoSimRun fid2 d (f :: fs) sim0 =
        photoSimRun fid2 d fs (photoFrame fid2 d f sim0) := rfl
    rw [hrun1, hrun2, hstep]
    exact ih hfs (photoFrame fid2 d f sim0)

/-- Witness for C10: one scattered frame, focusedId absent versus set to the
photo's own id, same resulting transform state. -/
theorem focus_id_noninterference_witness :
    (∀ f ∈ [frame0], f.st ≠ TreeState.FOCUS) ∧
    photoSimRun none photoData0 [frame0] photoSim0 =
      photoSimRun (some "photo-0") photoData0 [frame0] photoSim0 := by
  have h : ∀ f ∈ [frame0], f.st ≠ TreeState.FOCUS := by
    intro f hf
    simp only [List.mem_singleton] at hf
    subst hf
    simp [frame0]
  exact ⟨h, focus_id_noninterference photoData0 none (some "photo-0")
    [frame0] h photoSim0⟩

end

end St
